import Mathlib

/-!
Verification of the PHI detection engine of the healthcare-compliance
extension (source: `src/tools/clinical-calculator.ts`, PHI section).

The engine is shallowly embedded: the JavaScript regular expressions of the
pattern catalog are translated into a small regex syntax `RE` together with
a backtracking matcher that follows JS semantics (leftmost match, greedy
quantifiers, left-first alternation, `\b` word boundaries, `/i` case
folding), and the scanning pipeline (`detectPhi`: match, false-positive
filter, confidence scoring, sort, overlap deduplication) is translated
function by function.  Strings are modelled as `List Char`; confidences as
`Int`.  The matcher's recursion is structural on an explicit fuel so that
the kernel can evaluate concrete scans; the soundness lemmas below hold for
every fuel value.
-/

set_option maxHeartbeats 1000000

/-- Regex syntax: character classes, sequencing, alternation, greedy star
    and JS `\b` word boundaries.  Quantifiers `?`, `+`, `{n}`, `{lo,hi}`
    and `{lo,}` are derived forms. -/
inductive RE where
  | eps : RE
  | cls : (Char → Bool) → RE
  | seq : RE → RE → RE
  | alt : RE → RE → RE
  | star : RE → RE
  | wb : RE
deriving Inhabited

/-- JS word character `\w` = `[A-Za-z0-9_]`. -/
def isWordChar (c : Char) : Bool :=
  c.isAlphanum || c = '_'

/-- JS `\b`: holds between a word char and a non-word char (string edges
    count as non-word). -/
def boundaryHolds (p : Option Char) (s : List Char) : Bool :=
  let pw := match p with | some c => isWordChar c | none => false
  let nw := match s with | c :: _ => isWordChar c | [] => false
  pw != nw

/-- Node count of a regex, used to pick a sufficient evaluation fuel. -/
def reSize : RE → Nat
  | .eps => 1
  | .wb => 1
  | .cls _ => 1
  | .seq r1 r2 => reSize r1 + reSize r2 + 1
  | .alt r1 r2 => reSize r1 + reSize r2 + 1
  | .star r => reSize r + 1

/-- All consumed lengths a regex can take on the given suffix, in JS
    backtracking priority order (greedy first); `p` is the char just before
    the suffix, for word-boundary tests.  `fuel` bounds the recursion depth
    (structural recursion on `fuel`, so the kernel can evaluate it); a
    star iteration that consumes nothing is cut off, as JS also stops a
    greedy quantifier on an empty iteration. -/
def runs : Nat → RE → Option Char → List Char → List Nat
  | 0, _, _, _ => []
  | fuel + 1, re, p, s =>
    match re with
    | .eps => [0]
    | .wb => if boundaryHolds p s then [0] else []
    | .cls f =>
      match s with
      | [] => []
      | c :: _ => if f c then [1] else []
    | .seq r1 r2 =>
      (runs fuel r1 p s).flatMap (fun n =>
        let p' := if n = 0 then p else (s.take n).getLast?
        (runs fuel r2 p' (s.drop n)).map (fun m => n + m))
    | .alt r1 r2 => runs fuel r1 p s ++ runs fuel r2 p s
    | .star r =>
      ((runs fuel r p s).flatMap (fun n =>
        if n = 0 then []
        else
          let p' := (s.take n).getLast?
          (runs fuel (.star r) p' (s.drop n)).map (fun m => n + m))) ++ [0]

def prevChar (text : List Char) (j : Nat) : Option Char :=
  if j = 0 then none else text.get? (j - 1)

/-- Length of the JS-preferred match of `re` at position `j` of `text`,
    if any.  The fuel `(reSize re + 2) * (text.length + 2)` exceeds any
    possible backtracking depth. -/
def matchLenAt (re : RE) (text : List Char) (j : Nat) : Option Nat :=
  (runs ((reSize re + 2) * (text.length + 2)) re (prevChar text j)
    (text.drop j)).head?

/-- Smallest position `≥ j` with a match: the scan `RegExp.exec` performs
    from `lastIndex`. -/
def firstMatchGe (re : RE) (text : List Char) (j : Nat) (fuel : Nat) :
    Option (Nat × Nat) :=
  match fuel with
  | 0 => none
  | fuel + 1 =>
    match matchLenAt re text j with
    | some n => some (j, n)
    | none => if j < text.length then firstMatchGe re text (j + 1) fuel else none

/-- All matches the `while ((match = pattern.exec(content)) !== null)` loop
    with the `/g` flag reports, as (index, length) pairs; `lastIndex`
    advances past each match (`max n 1` only guards the empty-match case,
    which no catalog pattern can produce — see `phi_minLen_pos`). -/
def findAllMatches (re : RE) (text : List Char) : List (Nat × Nat) :=
  go 0 (text.length + 1)
where
  go (j fuel : Nat) : List (Nat × Nat) :=
    match fuel with
    | 0 => []
    | fuel + 1 =>
      match firstMatchGe re text j (text.length + 1 - j) with
      | none => []
      | some (i, n) => (i, n) :: go (i + (max n 1)) fuel

/-- JS `RegExp.test`: does the regex match anywhere in `s`? -/
def reTest (re : RE) (s : List Char) : Bool :=
  (List.range (s.length + 1)).any (fun j => (matchLenAt re s j).isSome)

/-! Derived regex forms. -/

def ch (c : Char) : RE := .cls (fun x => x = c)

/-- A character, case-insensitively (`/i` flag). -/
def chCI (c : Char) : RE := .cls (fun x => x.toLower = c.toLower)

def lit (s : String) : RE := s.toList.foldr (fun c r => .seq (ch c) r) .eps

def litCI (s : String) : RE := s.toList.foldr (fun c r => .seq (chCI c) r) .eps

/-- `r?` (greedy). -/
def reOpt (r : RE) : RE := .alt r .eps

/-- `r+` (greedy). -/
def plus (r : RE) : RE := .seq r (.star r)

/-- `r{k}` -/
def reCount (r : RE) (k : Nat) : RE :=
  match k with
  | 0 => .eps
  | k + 1 => .seq r (reCount r k)

/-- `r{0,k}` (greedy). -/
def upTo (r : RE) (k : Nat) : RE :=
  match k with
  | 0 => .eps
  | k + 1 => .alt (.seq r (upTo r k)) .eps

/-- `r{lo,hi}` (greedy). -/
def reRange (r : RE) (lo hi : Nat) : RE :=
  .seq (reCount r lo) (upTo r (hi - lo))

/-- `r{lo,}` (greedy). -/
def atLeast (r : RE) (lo : Nat) : RE :=
  .seq (reCount r lo) (.star r)

def digit : RE := .cls Char.isDigit
def alpha : RE := .cls Char.isAlpha
def alnum : RE := .cls Char.isAlphanum

/-- JS `\s` (ASCII part; the catalog texts involved are ASCII). -/
def isSpaceJS (c : Char) : Bool :=
  c = ' ' || c = '\t' || c = '\n' || c = '\r' || c = '\x0b' || c = '\x0c'

def clsUS : RE := .cls (fun c => c = '_' || isSpaceJS c)
def clsColonSp : RE := .cls (fun c => c = ':' || isSpaceJS c)
def clsColonSpHash : RE := .cls (fun c => c = ':' || isSpaceJS c || c = '#')
def clsQuote : RE := .cls (fun c => c = '"' || c = '\'')
def clsSep : RE := .cls (fun c => c = '-' || c = '.' || isSpaceJS c)
def clsSlashDash : RE := .cls (fun c => c = '/' || c = '-')
def clsSpace : RE := .cls isSpaceJS
def upperC : RE := .cls Char.isUpper
def lowerC : RE := .cls Char.isLower

def reSeq (rs : List RE) : RE := rs.foldr .seq .eps

def reAlts : List RE → RE
  | [] => .cls (fun _ => false)
  | [r] => r
  | r :: rs => .alt r (reAlts rs)

/-! The 19 catalog regexes, transcribed one to one from `PHI_PATTERNS`.
    In the `/gi` patterns every letter and letter class is case folded,
    exactly as the `i` flag does (so `[A-Z][a-z]+` there is any-case). -/

/-- `/\b\d{3}-?\d{2}-?\d{4}\b/g` -/
def ssnRE : RE :=
  reSeq [.wb, reCount digit 3, reOpt (ch '-'), reCount digit 2, reOpt (ch '-'),
    reCount digit 4, .wb]

/-- `/\b(?:MRN|mrn|Medical Record|medical_record)[:\s#]*\d{5,12}\b/gi` -/
def mrnRE : RE :=
  reSeq [.wb,
    reAlts [litCI "MRN", litCI "mrn", litCI "Medical Record", litCI "medical_record"],
    .star clsColonSpHash, reRange digit 5 12, .wb]

/-- `/\b[1-9][A-Za-z][A-Za-z0-9]\d[A-Za-z][A-Za-z0-9]\d[A-Za-z]{2}\d{2}\b/g` -/
def medicareRE : RE :=
  reSeq [.wb, .cls (fun c => '1' ≤ c && c ≤ '9'), alpha, alnum, digit, alpha, alnum,
    digit, reCount alpha 2, reCount digit 2, .wb]

/-- `(?:number|num|no)` under `/i`. -/
def numWord : RE := reAlts [litCI "number", litCI "num", litCI "no"]

/-- `/\b(?:member_?id|subscriber_?id|policy_?(?:number|num|no)|group_?(?:number|num|no))[:\s]*[A-Z0-9]{6,20}\b/gi` -/
def healthPlanRE : RE :=
  reSeq [.wb,
    reAlts [reSeq [litCI "member", reOpt (ch '_'), litCI "id"],
            reSeq [litCI "subscriber", reOpt (ch '_'), litCI "id"],
            reSeq [litCI "policy", reOpt (ch '_'), numWord],
            reSeq [litCI "group", reOpt (ch '_'), numWord]],
    .star clsColonSp, reRange alnum 6 20, .wb]

/-- `[A-Z][a-z]+` under `/i`. -/
def nameWordCI : RE := .seq alpha (plus alpha)

/-- `/\b(?:patient[_\s]?name|resident[_\s]?name|client[_\s]?name)[:\s]*["']?([A-Z][a-z]+ [A-Z][a-z]+)["']?/gi` -/
def patientNameRE : RE :=
  reSeq [.wb,
    reAlts [reSeq [litCI "patient", reOpt clsUS, litCI "name"],
            reSeq [litCI "resident", reOpt clsUS, litCI "name"],
            reSeq [litCI "client", reOpt clsUS, litCI "name"]],
    .star clsColonSp, reOpt clsQuote, nameWordCI, ch ' ', nameWordCI, reOpt clsQuote]

/-- `[A-Z][a-z]+`, case-sensitive. -/
def upperWord : RE := .seq upperC (plus lowerC)

/-- `/\b(?:name)[:\s]*["']([A-Z][a-z]+ [A-Z][a-z]+)["']/g` -/
def personNameRE : RE :=
  reSeq [.wb, lit "name", .star clsColonSp, clsQuote, upperWord, ch ' ', upperWord,
    clsQuote]

/-- `/\b(?:\+1[-.\s]?)?\(?\d{3}\)?[-.\s]?\d{3}[-.\s]?\d{4}\b/g` -/
def phoneRE : RE :=
  reSeq [.wb, reOpt (reSeq [ch '+', ch '1', reOpt clsSep]), reOpt (ch '('),
    reCount digit 3, reOpt (ch ')'), reOpt clsSep, reCount digit 3, reOpt clsSep,
    reCount digit 4, .wb]

def emailLocalC : RE :=
  .cls (fun c => c.isAlphanum || c = '.' || c = '_' || c = '%' || c = '+' || c = '-')

def emailDomainC : RE := .cls (fun c => c.isAlphanum || c = '.' || c = '-')

/-- `/\b[A-Za-z0-9._%+-]+@[A-Za-z0-9.-]+\.[A-Za-z]{2,}\b/g` -/
def emailRE : RE :=
  reSeq [.wb, plus emailLocalC, ch '@', plus emailDomainC, ch '.', atLeast alpha 2, .wb]

/-- `\d{1,2}[\/\-]\d{1,2}[\/\-]\d{2,4}` -/
def numericDateRE : RE :=
  reSeq [reRange digit 1 2, clsSlashDash, reRange digit 1 2, clsSlashDash,
    reRange digit 2 4]

/-- `/\b(?:dob|date[_\s]?of[_\s]?birth|birth[_\s]?date)[:\s]*["']?\d{1,2}[\/\-]\d{1,2}[\/\-]\d{2,4}["']?/gi` -/
def dobRE : RE :=
  reSeq [.wb,
    reAlts [litCI "dob",
            reSeq [litCI "date", reOpt clsUS, litCI "of", reOpt clsUS, litCI "birth"],
            reSeq [litCI "birth", reOpt clsUS, litCI "date"]],
    .star clsColonSp, reOpt clsQuote, numericDateRE, reOpt clsQuote]

/-- `/\b(?:dos|date[_\s]?of[_\s]?service|service[_\s]?date|admission[_\s]?date|discharge[_\s]?date)[:\s]*["']?\d{1,2}[\/\-]\d{1,2}[\/\-]\d{2,4}["']?/gi` -/
def dateServiceRE : RE :=
  reSeq [.wb,
    reAlts [litCI "dos",
            reSeq [litCI "date", reOpt clsUS, litCI "of", reOpt clsUS, litCI "service"],
            reSeq [litCI "service", reOpt clsUS, litCI "date"],
            reSeq [litCI "admission", reOpt clsUS, litCI "date"],
            reSeq [litCI "discharge", reOpt clsUS, litCI "date"]],
    .star clsColonSp, reOpt clsQuote, numericDateRE, reOpt clsQuote]

/-- `/\b\d{1,5}\s+(?:[A-Z][a-z]+\s+){1,3}(?:Street|St|Avenue|Ave|Road|Rd|Boulevard|Blvd|Drive|Dr|Lane|Ln|Court|Ct|Way|Circle|Cir)\b/gi` -/
def streetAddressRE : RE :=
  reSeq [.wb, reRange digit 1 5, plus clsSpace,
    reRange (reSeq [alpha, plus alpha, plus clsSpace]) 1 3,
    reAlts [litCI "Street", litCI "St", litCI "Avenue", litCI "Ave", litCI "Road",
            litCI "Rd", litCI "Boulevard", litCI "Blvd", litCI "Drive", litCI "Dr",
            litCI "Lane", litCI "Ln", litCI "Court", litCI "Ct", litCI "Way",
            litCI "Circle", litCI "Cir"],
    .wb]

/-- `/\b(?:zip|postal)[_\s]?(?:code)?[:\s]*\d{5}(?:-\d{4})?\b/gi` -/
def zipRE : RE :=
  reSeq [.wb, reAlts [litCI "zip", litCI "postal"], reOpt clsUS, reOpt (litCI "code"),
    .star clsColonSp, reCount digit 5, reOpt (reSeq [ch '-', reCount digit 4]), .wb]

/-- `(?:number|num|no|#)` under `/i`. -/
def accountNumWord : RE := reAlts [litCI "number", litCI "num", litCI "no", ch '#']

/-- `/\b(?:account[_\s]?(?:number|num|no|#)|acct[_\s]?(?:number|num|no|#))[:\s]*[A-Z0-9]{6,20}\b/gi` -/
def accountRE : RE :=
  reSeq [.wb,
    reAlts [reSeq [litCI "account", reOpt clsUS, accountNumWord],
            reSeq [litCI "acct", reOpt clsUS, accountNumWord]],
    .star clsColonSp, reRange alnum 6 20, .wb]

/-- `/\b(?:device[_\s]?(?:id|identifier|serial)|serial[_\s]?(?:number|num|no))[:\s]*[A-Z0-9\-]{8,30}\b/gi` -/
def deviceRE : RE :=
  reSeq [.wb,
    reAlts [reSeq [litCI "device", reOpt clsUS,
                   reAlts [litCI "id", litCI "identifier", litCI "serial"]],
            reSeq [litCI "serial", reOpt clsUS, numWord]],
    .star clsColonSp, reRange (.cls (fun c => c.isAlphanum || c = '-')) 8 30, .wb]

/-- `/\b(?:fingerprint|biometric)[_\s]?(?:data|hash|id)[:\s]*[A-Za-z0-9+\/=]{20,}/gi` -/
def fingerprintRE : RE :=
  reSeq [.wb, reAlts [litCI "fingerprint", litCI "biometric"], reOpt clsUS,
    reAlts [litCI "data", litCI "hash", litCI "id"], .star clsColonSp,
    atLeast (.cls (fun c => c.isAlphanum || c = '+' || c = '/' || c = '=')) 20]

/-- `/\b(?:patient[_\s]?ip|client[_\s]?ip|user[_\s]?ip)[:\s]*(?:\d{1,3}\.){3}\d{1,3}\b/gi` -/
def ipRE : RE :=
  reSeq [.wb,
    reAlts [reSeq [litCI "patient", reOpt clsUS, litCI "ip"],
            reSeq [litCI "client", reOpt clsUS, litCI "ip"],
            reSeq [litCI "user", reOpt clsUS, litCI "ip"]],
    .star clsColonSp, reCount (reSeq [reRange digit 1 3, ch '.']) 3,
    reRange digit 1 3, .wb]

/-- `/\b(?:license[_\s]?plate|vehicle[_\s]?(?:plate|tag))[:\s]*[A-Z0-9]{5,8}\b/gi` -/
def licensePlateRE : RE :=
  reSeq [.wb,
    reAlts [reSeq [litCI "license", reOpt clsUS, litCI "plate"],
            reSeq [litCI "vehicle", reOpt clsUS, reAlts [litCI "plate", litCI "tag"]]],
    .star clsColonSp, reRange alnum 5 8, .wb]

/-- `/\b(?:patient[_\s]?photo|resident[_\s]?photo|client[_\s]?photo|face[_\s]?image)[_\s]*[:=]/gi` -/
def photoRE : RE :=
  reSeq [.wb,
    reAlts [reSeq [litCI "patient", reOpt clsUS, litCI "photo"],
            reSeq [litCI "resident", reOpt clsUS, litCI "photo"],
            reSeq [litCI "client", reOpt clsUS, litCI "photo"],
            reSeq [litCI "face", reOpt clsUS, litCI "image"]],
    .star clsUS, .cls (fun c => c = ':' || c = '=')]

/-- `/\b(?:diagnosis|dx)[:\s]*["']?[A-Z]\d{2}(?:\.\d{1,4})?["']?/gi` -/
def diagnosisRE : RE :=
  reSeq [.wb, reAlts [litCI "diagnosis", litCI "dx"], .star clsColonSp, reOpt clsQuote,
    alpha, reCount digit 2, reOpt (reSeq [ch '.', reRange digit 1 4]), reOpt clsQuote]

/-- `FALSE_POSITIVE_PATTERNS`, in source order. -/
def FALSE_POSITIVE_PATTERNS : List RE :=
  [litCI "test@example.com",
   litCI "user@domain.com",
   litCI "john.doe@",
   litCI "jane.doe@",
   lit "123-45-6789",
   lit "000-00-0000",
   lit "111-11-1111",
   lit "555-555-5555",
   reSeq [.wb, reAlts [lit "localhost", lit "127.0.0.1", lit "0.0.0.0"], .wb],
   reAlts [litCI "placeholder", litCI "example", litCI "sample", litCI "test",
           litCI "dummy", litCI "mock", litCI "fake"]]

/-- `/\b(?:test|example|sample|dummy|mock|fake|placeholder)\b/` applied to
    the lowercased proximity window. -/
def markerWordRE : RE :=
  reSeq [.wb,
    reAlts [lit "test", lit "example", lit "sample", lit "dummy", lit "mock",
            lit "fake", lit "placeholder"],
    .wb]

/-! The catalog data model and the 19 `PHI_PATTERNS` entries. -/

inductive ContextType where
  | code | filename | data | comment | general
deriving DecidableEq, Repr, Inhabited

inductive PhiCategory where
  | direct | quasi | indirect
deriving DecidableEq, Repr, Inhabited

structure PhiPattern where
  id : String
  name : String
  pattern : RE
  category : PhiCategory
  hipaaIdentifier : String
  baseConfidence : Int
  contextModifiers : ContextType → Option Int

/-- Absent `contextModifiers` field. -/
def noModifiers : ContextType → Option Int := fun _ => none

def ssnPat : PhiPattern :=
  { id := "ssn", name := "Social Security Number", pattern := ssnRE,
    category := .direct, hipaaIdentifier := "Social Security number",
    baseConfidence := 95,
    contextModifiers := fun ctx => match ctx with
      | .code => some (-30) | .filename => some 5 | _ => none }

def mrnPat : PhiPattern :=
  { id := "mrn", name := "Medical Record Number", pattern := mrnRE,
    category := .direct, hipaaIdentifier := "Medical record numbers",
    baseConfidence := 90, contextModifiers := noModifiers }

def medicarePat : PhiPattern :=
  { id := "medicare_id", name := "Medicare Beneficiary Identifier",
    pattern := medicareRE, category := .direct,
    hipaaIdentifier := "Health plan beneficiary numbers",
    baseConfidence := 92, contextModifiers := noModifiers }

def healthPlanPat : PhiPattern :=
  { id := "health_plan_id", name := "Health Plan ID", pattern := healthPlanRE,
    category := .direct, hipaaIdentifier := "Health plan beneficiary numbers",
    baseConfidence := 75, contextModifiers := noModifiers }

def patientNamePat : PhiPattern :=
  { id := "patient_name_explicit", name := "Explicit Patient Name",
    pattern := patientNameRE, category := .direct, hipaaIdentifier := "Names",
    baseConfidence := 88, contextModifiers := noModifiers }

def personNamePat : PhiPattern :=
  { id := "person_name", name := "Person Name (Generic)", pattern := personNameRE,
    category := .quasi, hipaaIdentifier := "Names", baseConfidence := 60,
    contextModifiers := fun ctx => match ctx with
      | .data => some 20 | .code => some (-20) | _ => none }

def phonePat : PhiPattern :=
  { id := "phone", name := "Phone Number", pattern := phoneRE,
    category := .direct, hipaaIdentifier := "Telephone numbers",
    baseConfidence := 65,
    contextModifiers := fun ctx => match ctx with
      | .code => some (-30) | .data => some 20 | _ => none }

def emailPat : PhiPattern :=
  { id := "email", name := "Email Address", pattern := emailRE,
    category := .direct, hipaaIdentifier := "Email addresses",
    baseConfidence := 60,
    contextModifiers := fun ctx => match ctx with
      | .code => some (-40) | .data => some 25 | _ => none }

def dobPat : PhiPattern :=
  { id := "dob_explicit", name := "Date of Birth (Explicit)", pattern := dobRE,
    category := .direct, hipaaIdentifier := "Dates (except year)",
    baseConfidence := 92, contextModifiers := noModifiers }

def dateServicePat : PhiPattern :=
  { id := "date_service", name := "Date of Service", pattern := dateServiceRE,
    category := .quasi, hipaaIdentifier := "Dates (except year)",
    baseConfidence := 70, contextModifiers := noModifiers }

def streetAddressPat : PhiPattern :=
  { id := "street_address", name := "Street Address", pattern := streetAddressRE,
    category := .direct, hipaaIdentifier := "Geographic data",
    baseConfidence := 75,
    contextModifiers := fun ctx => match ctx with
      | .code => some (-35) | _ => none }

def zipPat : PhiPattern :=
  { id := "zip_code", name := "ZIP Code", pattern := zipRE,
    category := .direct, hipaaIdentifier := "Geographic data (ZIP codes)",
    baseConfidence := 55,
    contextModifiers := fun ctx => match ctx with
      | .data => some 20 | _ => none }

def accountPat : PhiPattern :=
  { id := "account_number", name := "Account Number", pattern := accountRE,
    category := .direct, hipaaIdentifier := "Account numbers",
    baseConfidence := 70, contextModifiers := noModifiers }

def devicePat : PhiPattern :=
  { id := "device_id", name := "Device Identifier", pattern := deviceRE,
    category := .direct, hipaaIdentifier := "Device identifiers and serial numbers",
    baseConfidence := 65, contextModifiers := noModifiers }

def fingerprintPat : PhiPattern :=
  { id := "fingerprint", name := "Fingerprint Data", pattern := fingerprintRE,
    category := .direct, hipaaIdentifier := "Biometric identifiers",
    baseConfidence := 85, contextModifiers := noModifiers }

def ipPat : PhiPattern :=
  { id := "ip_address", name := "IP Address", pattern := ipRE,
    category := .direct, hipaaIdentifier := "IP addresses",
    baseConfidence := 80, contextModifiers := noModifiers }

def licensePlatePat : PhiPattern :=
  { id := "license_plate", name := "License Plate", pattern := licensePlateRE,
    category := .direct, hipaaIdentifier := "Vehicle identifiers",
    baseConfidence := 75, contextModifiers := noModifiers }

def photoPat : PhiPattern :=
  { id := "photo_reference", name := "Photo Reference", pattern := photoRE,
    category := .direct, hipaaIdentifier := "Full-face photographs",
    baseConfidence := 82, contextModifiers := noModifiers }

def diagnosisPat : PhiPattern :=
  { id := "diagnosis_code", name := "Diagnosis with Context", pattern := diagnosisRE,
    category := .quasi, hipaaIdentifier := "Medical information",
    baseConfidence := 40,
    contextModifiers := fun ctx => match ctx with
      | .data => some 30 | _ => none }

def PHI_PATTERNS : List PhiPattern :=
  [ssnPat, mrnPat, medicarePat, healthPlanPat, patientNamePat, personNamePat,
   phonePat, emailPat, dobPat, dateServicePat, streetAddressPat, zipPat,
   accountPat, devicePat, fingerprintPat, ipPat, licensePlatePat, photoPat,
   diagnosisPat]

/-- Source `PhiFinding`; the `match` field is `matchText` here
    (`match` is a Lean keyword). -/
structure PhiFinding where
  type : String
  matchText : List Char
  confidence : Int
  category : PhiCategory
  hipaaIdentifier : String
  explanation : String
  startIndex : Nat
  endIndex : Nat
deriving DecidableEq, Repr, Inhabited

structure PhiDetectionResult where
  findings : List PhiFinding
  scannedLength : Nat
  context : ContextType
  strictMode : Bool
deriving DecidableEq, Repr

/-- Source `isFalsePositive`: a fixed-pattern test on the matched text,
    then the marker-word test on the lowercased ±50-character window
    (`index - 50` is `Math.max(0, index - 50)`; `Nat` subtraction
    truncates the same way). -/
def isFalsePositive (m : List Char) (content : List Char) (index : Nat) : Bool :=
  if FALSE_POSITIVE_PATTERNS.any (fun re => reTest re m) then true
  else
    let contextStart := index - 50
    let contextEnd := min content.length (index + m.length + 50)
    let surroundingContext :=
      ((content.drop contextStart).take (contextEnd - contextStart)).map Char.toLower
    reTest markerWordRE surroundingContext

def categoryText : PhiCategory → String
  | .direct => "direct" | .quasi => "quasi" | .indirect => "indirect"

/-- Source `getExplanation`. -/
def getExplanation (p : PhiPattern) (confidence : Int) : String :=
  let confidenceLevel :=
    if confidence ≥ 80 then "High" else if confidence ≥ 60 then "Medium" else "Low"
  confidenceLevel ++ " confidence match for " ++ p.hipaaIdentifier ++ ". " ++
    "This is a " ++ categoryText p.category ++
    " identifier under HIPAA Safe Harbor de-identification."

/-- `confidence = pattern.baseConfidence` plus the context modifier when
    one is defined (`detectPhi` lines 781-789). -/
def baseWithContext (p : PhiPattern) (context : ContextType) : Int :=
  match p.contextModifiers context with
  | some m => p.baseConfidence + m
  | none => p.baseConfidence

/-- `if (strictMode && confidence < 70) confidence += 15` (lines 791-794). -/
def applyStrictBoost (confidence : Int) (strictMode : Bool) : Int :=
  if strictMode && confidence < 70 then confidence + 15 else confidence

/-- `Math.max(0, Math.min(100, confidence))` (line 802). -/
def clampConfidence (c : Int) : Int := max 0 (min 100 c)

/-- The scoring part of the per-match loop body: context modifier, strict
    boost, the non-strict `< 50` discard (`continue`), then the clamp;
    `none` means the candidate is dropped. -/
def computeConfidence (p : PhiPattern) (context : ContextType) (strictMode : Bool) :
    Option Int :=
  let confidence := applyStrictBoost (baseWithContext p context) strictMode
  if !strictMode && confidence < 50 then none
  else some (clampConfidence confidence)

/-- The `while (match = pattern.pattern.exec(content))` loop of `detectPhi`
    for one pattern: skip false positives, score, and build the finding
    with `startIndex = match.index`, `endIndex = index + match[0].length`. -/
def scanPattern (p : PhiPattern) (content : List Char) (context : ContextType)
    (strictMode : Bool) : List PhiFinding :=
  (findAllMatches p.pattern content).filterMap (fun jn =>
    let matchedText := (content.drop jn.1).take jn.2
    if isFalsePositive matchedText content jn.1 then none
    else
      match computeConfidence p context strictMode with
      | none => none
      | some confidence =>
        some { type := p.name, matchText := matchedText, confidence,
               category := p.category, hipaaIdentifier := p.hipaaIdentifier,
               explanation := getExplanation p confidence,
               startIndex := jn.1, endIndex := jn.1 + jn.2 })

/-- The candidate list `findings` accumulated over all catalog patterns
    before sorting and deduplication. -/
def rawFindings (content : List Char) (context : ContextType) (strictMode : Bool) :
    List PhiFinding :=
  PHI_PATTERNS.flatMap (fun p => scanPattern p content context strictMode)

/-- Stable insertion placing `f` after all entries of greater-or-equal
    confidence: one step of the stable
    `findings.sort((a, b) => b.confidence - a.confidence)`. -/
def insertByConfidence (f : PhiFinding) : List PhiFinding → List PhiFinding
  | [] => [f]
  | g :: rest =>
    if f.confidence > g.confidence then f :: g :: rest
    else g :: insertByConfidence f rest

/-- The stable descending sort by confidence (`Array.prototype.sort` is
    stable per ES2019). -/
def sortByConfidence (l : List PhiFinding) : List PhiFinding :=
  l.foldl (fun acc f => insertByConfidence f acc) []

/-- The overlap test of `deduplicateFindings`:
    `!(finding.endIndex <= f.startIndex || finding.startIndex >= f.endIndex)`. -/
def overlapsB (a b : PhiFinding) : Bool :=
  !(a.endIndex ≤ b.startIndex || a.startIndex ≥ b.endIndex)

/-- The accepting loop of `deduplicateFindings`: keep a finding only when
    it overlaps no already-accepted one. -/
def dedupGo (result : List PhiFinding) : List PhiFinding → List PhiFinding
  | [] => result
  | finding :: rest =>
    if result.any (fun f => overlapsB finding f) then dedupGo result rest
    else dedupGo (result ++ [finding]) rest

def deduplicateFindings (findings : List PhiFinding) : List PhiFinding :=
  dedupGo [] findings

/-- Source `detectPhi`: scan all patterns, sort by confidence (highest
    first), remove overlapping findings. -/
def detectPhi (content : List Char) (context : ContextType) (strictMode : Bool) :
    PhiDetectionResult :=
  let findings := rawFindings content context strictMode
  let sorted := sortByConfidence findings
  { findings := deduplicateFindings sorted,
    scannedLength := content.length,
    context := context, strictMode := strictMode }

/-- Outcome of the tool handler `handlePhiDetect`: the JavaScript
    `if (!content)` guard rejects empty content (the empty string is
    falsy) before any scan; an empty scan yields the no-PHI message;
    otherwise the formatted report (formatting itself elided). -/
inductive PhiDetectOutcome where
  | errorMessage (text : String)
  | noPhiDetected
  | phiReport (result : PhiDetectionResult)
deriving DecidableEq, Repr

def handlePhiDetect (content : List Char) (context : ContextType)
    (strictMode : Bool) : PhiDetectOutcome :=
  if content.isEmpty then
    .errorMessage "Error: Content is required for PHI detection."
  else
    let result := detectPhi content context strictMode
    if result.findings.length = 0 then .noPhiDetected
    else .phiReport result

/-- The confidence-scoring steps exactly as the specification words them
    (§4.3, steps 1-5, in this order): start from the base confidence, add
    the context delta when defined, boost by 15 in strict mode below 70,
    discard below 50 outside strict mode, clamp to [0, 100].  Stated
    separately from `computeConfidence` (which is translated from the
    code) so the two can be compared. -/
def specConfidenceScorer (base : Int) (delta : Option Int) (strictMode : Bool) :
    Option Int :=
  let confidence := base
  let confidence := match delta with
    | some d => confidence + d
    | none => confidence
  let confidence :=
    if strictMode = true ∧ confidence < 70 then confidence + 15 else confidence
  if strictMode = false ∧ confidence < 50 then none
  else some (max 0 (min 100 confidence))

/-- Minimum number of characters any match of `re` consumes. -/
def minLen : RE → Nat
  | .eps => 0
  | .wb => 0
  | .cls _ => 1
  | .seq r1 r2 => minLen r1 + minLen r2
  | .alt r1 r2 => min (minLen r1) (minLen r2)
  | .star _ => 0

/-- Maximum number of characters a match of `re` can consume
    (`none` = unbounded). -/
def maxLenOpt : RE → Option Nat
  | .eps => some 0
  | .wb => some 0
  | .cls _ => some 1
  | .seq r1 r2 =>
    match maxLenOpt r1, maxLenOpt r2 with
    | some a, some b => some (a + b)
    | _, _ => none
  | .alt r1 r2 =>
    match maxLenOpt r1, maxLenOpt r2 with
    | some a, some b => some (max a b)
    | _, _ => none
  | .star _ => none

/-- Descending order by confidence. -/
def ConfSorted (l : List PhiFinding) : Prop :=
  l.Pairwise (fun a b => b.confidence ≤ a.confidence)

/-- Non-overlapping spans, as the dedup loop tests them. -/
def NoOverlap (l : List PhiFinding) : Prop :=
  l.Pairwise (fun a b => overlapsB a b = false)

/-- Projection used to state concrete-scan results compactly:
    (type, confidence, startIndex, endIndex). -/
def findingSummary (f : PhiFinding) : String × Int × Nat × Nat :=
  (f.type, f.confidence, f.startIndex, f.endIndex)

/-! Concrete inputs and findings used by the scenario claims and the
    witnesses. -/

def c3text : List Char :=
  "fingerprint_data: abcdefghijklmnopq+MRN 123456789".toList

def c3mrnFinding : PhiFinding :=
  { type := "Medical Record Number", matchText := "MRN 123456789".toList,
    confidence := 90, category := .direct,
    hipaaIdentifier := "Medical record numbers",
    explanation := getExplanation mrnPat 90, startIndex := 36, endIndex := 49 }

def c3fpFinding : PhiFinding :=
  { type := "Fingerprint Data",
    matchText := "fingerprint_data: abcdefghijklmnopq+MRN".toList,
    confidence := 85, category := .direct,
    hipaaIdentifier := "Biometric identifiers",
    explanation := getExplanation fingerprintPat 85, startIndex := 0,
    endIndex := 39 }

def c5text : List Char := "ssn = \"123-45-6789\"".toList

def c5btext : List Char := "ssn = \"456-78-9012\"".toList

def c6text : List Char :=
  "Patient MRN: 123456789, DOB: 01/15/1985, phone: (555) 123-4567".toList

def c7text : List Char := "ssn 456-78-9012 and 000-00-0000".toList

def c7Finding : PhiFinding :=
  { type := "Social Security Number", matchText := "456-78-9012".toList,
    confidence := 95, category := .direct,
    hipaaIdentifier := "Social Security number",
    explanation := getExplanation ssnPat 95, startIndex := 4, endIndex := 15 }

def witText : List Char := "MRN: 12345678".toList

def witFinding : PhiFinding :=
  { type := "Medical Record Number", matchText := "MRN: 12345678".toList,
    confidence := 90, category := .direct,
    hipaaIdentifier := "Medical record numbers",
    explanation := getExplanation mrnPat 90, startIndex := 0, endIndex := 13 }

/-! ### Matcher soundness lemmas (for every fuel value) -/

theorem runs_le_length {fuel : Nat} {re : RE} {p : Option Char} {s : List Char}
    {n : Nat} (h : n ∈ runs fuel re p s) : n ≤ s.length := by
  induction fuel generalizing re p s n with
  | zero => simp [runs] at h
  | succ fuel ih =>
    cases re with
    | eps => simp [runs] at h; omega
    | wb =>
      simp only [runs] at h
      split at h <;> simp at h
      omega
    | cls f =>
      simp only [runs] at h
      cases s with
      | nil => simp at h
      | cons c rest =>
        simp only at h
        split at h <;> simp at h
        have hc : (c :: rest).length = rest.length + 1 := rfl
        omega
    | seq r1 r2 =>
      simp only [runs, List.mem_flatMap, List.mem_map] at h
      obtain ⟨a, ha, m, hm, rfl⟩ := h
      have h1 := ih ha
      have h2 := ih hm
      simp [List.length_drop] at h2
      omega
    | alt r1 r2 =>
      simp only [runs, List.mem_append] at h
      rcases h with h | h
      · exact ih h
      · exact ih h
    | star r =>
      simp only [runs, List.mem_append, List.mem_flatMap] at h
      rcases h with h | h
      · obtain ⟨a, ha, hsplit⟩ := h
        split at hsplit
        · simp at hsplit
        · simp only [List.mem_map] at hsplit
          obtain ⟨m, hm, rfl⟩ := hsplit
          have h1 := ih ha
          have h2 := ih hm
          simp [List.length_drop] at h2
          omega
      · simp at h; omega

theorem minLen_le_runs {fuel : Nat} {re : RE} {p : Option Char} {s : List Char}
    {n : Nat} (h : n ∈ runs fuel re p s) : minLen re ≤ n := by
  induction fuel generalizing re p s n with
  | zero => simp [runs] at h
  | succ fuel ih =>
    cases re with
    | eps => simp [runs] at h; simp [minLen, h]
    | wb =>
      simp only [runs] at h
      split at h <;> simp at h
      simp [minLen, h]
    | cls f =>
      simp only [runs] at h
      cases s with
      | nil => simp at h
      | cons c rest =>
        simp only at h
        split at h <;> simp at h
        simp [minLen, h]
    | seq r1 r2 =>
      simp only [runs, List.mem_flatMap, List.mem_map] at h
      obtain ⟨a, ha, m, hm, rfl⟩ := h
      have h1 := ih ha
      have h2 := ih hm
      simp only [minLen]
      omega
    | alt r1 r2 =>
      simp only [runs, List.mem_append] at h
      simp only [minLen]
      rcases h with h | h
      · have := ih h; omega
      · have := ih h; omega
    | star r => simp [minLen]

theorem runs_le_maxLen {fuel : Nat} {re : RE} {p : Option Char} {s : List Char}
    {n m : Nat} (hm : maxLenOpt re = some m) (h : n ∈ runs fuel re p s) :
    n ≤ m := by
  induction fuel generalizing re p s n m with
  | zero => simp [runs] at h
  | succ fuel ih =>
    cases re with
    | eps => simp [maxLenOpt] at hm; simp [runs] at h; omega
    | wb =>
      simp [maxLenOpt] at hm
      simp only [runs] at h
      split at h <;> simp at h
      omega
    | cls f =>
      simp [maxLenOpt] at hm
      simp only [runs] at h
      cases s with
      | nil => simp at h
      | cons c rest =>
        simp only at h
        split at h <;> simp at h
        omega
    | seq r1 r2 =>
      simp only [maxLenOpt] at hm
      split at hm
      next a b h1 h2 =>
        simp only [Option.some_inj] at hm
        simp only [runs, List.mem_flatMap, List.mem_map] at h
        obtain ⟨x, hx, y, hy, rfl⟩ := h
        have := ih h1 hx
        have := ih h2 hy
        omega
      next => simp at hm
    | alt r1 r2 =>
      simp only [maxLenOpt] at hm
      split at hm
      next a b h1 h2 =>
        simp only [Option.some_inj] at hm
        simp only [runs, List.mem_append] at h
        rcases h with h | h
        · have := ih h1 h; omega
        · have := ih h2 h; omega
      next => simp at hm
    | star r => simp [maxLenOpt] at hm

theorem matchLenAt_mem_runs {re : RE} {text : List Char} {j n : Nat}
    (h : matchLenAt re text j = some n) :
    n ∈ runs ((reSize re + 2) * (text.length + 2)) re (prevChar text j)
      (text.drop j) := by
  unfold matchLenAt at h
  exact List.mem_of_mem_head? h

theorem matchLenAt_le {re : RE} {text : List Char} {j n : Nat}
    (h : matchLenAt re text j = some n) : n ≤ text.length - j := by
  have := runs_le_length (matchLenAt_mem_runs h)
  simp [List.length_drop] at this
  exact this

theorem matchLenAt_minLen {re : RE} {text : List Char} {j n : Nat}
    (h : matchLenAt re text j = some n) : minLen re ≤ n :=
  minLen_le_runs (matchLenAt_mem_runs h)

theorem matchLenAt_maxLen {re : RE} {text : List Char} {j n m : Nat}
    (hm : maxLenOpt re = some m) (h : matchLenAt re text j = some n) : n ≤ m :=
  runs_le_maxLen hm (matchLenAt_mem_runs h)

/-- Every match the exec scan reports is a real match at its index. -/
theorem firstMatchGe_sound {re : RE} {text : List Char} {j fuel i n : Nat}
    (h : firstMatchGe re text j fuel = some (i, n)) :
    matchLenAt re text i = some n := by
  induction fuel generalizing j with
  | zero => simp [firstMatchGe] at h
  | succ fuel ih =>
    simp only [firstMatchGe] at h
    cases hm : matchLenAt re text j with
    | some k => simp [hm] at h; obtain ⟨rfl, rfl⟩ := h; exact hm
    | none =>
      simp only [hm] at h
      split at h
      · exact ih h
      · simp at h

theorem findAllMatches_go_sound {re : RE} {text : List Char} {j fuel i n : Nat}
    (h : (i, n) ∈ findAllMatches.go re text j fuel) :
    matchLenAt re text i = some n := by
  induction fuel generalizing j with
  | zero => simp [findAllMatches.go] at h
  | succ fuel ih =>
    simp only [findAllMatches.go] at h
    split at h
    · simp at h
    next i' n' heq =>
      simp only [List.mem_cons] at h
      rcases h with h | h
      · obtain ⟨rfl, rfl⟩ := Prod.mk.injEq .. ▸ h
        exact firstMatchGe_sound heq
      · exact ih h

theorem findAllMatches_sound {re : RE} {text : List Char} {i n : Nat}
    (h : (i, n) ∈ findAllMatches re text) : matchLenAt re text i = some n :=
  findAllMatches_go_sound h

/-! ### Pipeline structural lemmas -/

theorem computeConfidence_bounds {p : PhiPattern} {context : ContextType}
    {strictMode : Bool} {c : Int}
    (h : computeConfidence p context strictMode = some c) : 0 ≤ c ∧ c ≤ 100 := by
  simp only [computeConfidence] at h
  split at h
  · exact absurd h (by simp)
  · simp only [Option.some_inj] at h
    subst h
    unfold clampConfidence
    constructor
    · exact le_max_left 0 _
    · exact max_le (by norm_num) (min_le_left 100 _)

theorem mem_scanPattern {p : PhiPattern} {content : List Char}
    {context : ContextType} {strictMode : Bool} {f : PhiFinding}
    (h : f ∈ scanPattern p content context strictMode) :
    ∃ i n c, (i, n) ∈ findAllMatches p.pattern content ∧
      isFalsePositive ((content.drop i).take n) content i = false ∧
      computeConfidence p context strictMode = some c ∧
      f = { type := p.name, matchText := (content.drop i).take n,
            confidence := c, category := p.category,
            hipaaIdentifier := p.hipaaIdentifier,
            explanation := getExplanation p c,
            startIndex := i, endIndex := i + n } := by
  unfold scanPattern at h
  rw [List.mem_filterMap] at h
  obtain ⟨⟨i, n⟩, hmem, hfn⟩ := h
  simp only at hfn
  split at hfn
  · exact absurd hfn (by simp)
  next hfp =>
    cases hcc : computeConfidence p context strictMode with
    | none => rw [hcc] at hfn; exact absurd hfn (by simp)
    | some c =>
      rw [hcc] at hfn
      simp only [Option.some_inj] at hfn
      exact ⟨i, n, c, hmem, by simpa using hfp, rfl, hfn.symm⟩

theorem mem_rawFindings {content : List Char} {context : ContextType}
    {strictMode : Bool} {f : PhiFinding}
    (h : f ∈ rawFindings content context strictMode) :
    ∃ p ∈ PHI_PATTERNS, f ∈ scanPattern p content context strictMode := by
  unfold rawFindings at h
  rw [List.mem_flatMap] at h
  exact h

/-! ### Sorting lemmas -/

theorem mem_insertByConfidence {x f : PhiFinding} {l : List PhiFinding} :
    x ∈ insertByConfidence f l ↔ x = f ∨ x ∈ l := by
  induction l with
  | nil => simp [insertByConfidence]
  | cons g rest ih =>
    simp only [insertByConfidence]
    split
    · simp [List.mem_cons]
    · simp only [List.mem_cons, ih]
      tauto

theorem mem_sortByConfidence {x : PhiFinding} {l : List PhiFinding} :
    x ∈ sortByConfidence l ↔ x ∈ l := by
  unfold sortByConfidence
  suffices h : ∀ (l acc : List PhiFinding),
      x ∈ l.foldl (fun acc f => insertByConfidence f acc) acc ↔ x ∈ acc ∨ x ∈ l by
    simpa using h l []
  intro l
  induction l with
  | nil => simp
  | cons f rest ih =>
    intro acc
    simp only [List.foldl_cons, ih, mem_insertByConfidence, List.mem_cons]
    tauto

theorem insertByConfidence_sorted {f : PhiFinding} {l : List PhiFinding}
    (h : ConfSorted l) : ConfSorted (insertByConfidence f l) := by
  induction l with
  | nil => simp [insertByConfidence, ConfSorted]
  | cons g rest ih =>
    simp only [insertByConfidence]
    unfold ConfSorted at h
    rw [List.pairwise_cons] at h
    obtain ⟨hg, hrest⟩ := h
    split
    next hgt =>
      unfold ConfSorted
      rw [List.pairwise_cons]
      constructor
      · intro y hy
        rcases List.mem_cons.mp hy with rfl | hy
        · omega
        · have := hg y hy; omega
      · rw [List.pairwise_cons]; exact ⟨hg, hrest⟩
    next hle =>
      unfold ConfSorted
      rw [List.pairwise_cons]
      constructor
      · intro y hy
        rcases mem_insertByConfidence.mp hy with rfl | hy
        · omega
        · exact hg y hy
      · exact ih hrest

theorem sortByConfidence_sorted (l : List PhiFinding) :
    ConfSorted (sortByConfidence l) := by
  unfold sortByConfidence
  suffices h : ∀ (l acc : List PhiFinding), ConfSorted acc →
      ConfSorted (l.foldl (fun acc f => insertByConfidence f acc) acc) by
    exact h l [] (by simp [ConfSorted])
  intro l
  induction l with
  | nil => intro acc h; simpa using h
  | cons f rest ih =>
    intro acc h
    exact ih _ (insertByConfidence_sorted h)

/-! ### Deduplication lemmas -/

theorem overlapsB_eq_true {a b : PhiFinding} :
    overlapsB a b = true ↔ b.startIndex < a.endIndex ∧ a.startIndex < b.endIndex := by
  simp only [overlapsB, Bool.not_eq_true', Bool.or_eq_false_iff,
    decide_eq_false_iff_not, Nat.not_le, ge_iff_le]

theorem overlapsB_eq_false {a b : PhiFinding} :
    overlapsB a b = false ↔
      a.endIndex ≤ b.startIndex ∨ b.endIndex ≤ a.startIndex := by
  rw [← Bool.not_eq_true, overlapsB_eq_true]
  omega

theorem overlapsB_symm (a b : PhiFinding) : overlapsB a b = overlapsB b a := by
  rw [Bool.eq_iff_iff, overlapsB_eq_true, overlapsB_eq_true]
  exact and_comm

theorem dedupGo_eq_append (l : List PhiFinding) :
    ∀ acc, ∃ s, dedupGo acc l = acc ++ s ∧ s.Sublist l := by
  induction l with
  | nil => intro acc; exact ⟨[], by simp [dedupGo]⟩
  | cons f rest ih =>
    intro acc
    simp only [dedupGo]
    split
    · obtain ⟨s, hs, hsub⟩ := ih acc
      exact ⟨s, hs, hsub.cons f⟩
    · obtain ⟨s, hs, hsub⟩ := ih (acc ++ [f])
      refine ⟨f :: s, ?_, hsub.cons₂ f⟩
      rw [hs, List.append_assoc]
      rfl

theorem mem_deduplicateFindings {f : PhiFinding} {l : List PhiFinding}
    (h : f ∈ deduplicateFindings l) : f ∈ l := by
  unfold deduplicateFindings at h
  obtain ⟨s, hs, hsub⟩ := dedupGo_eq_append l []
  rw [hs] at h
  simp only [List.nil_append] at h
  exact hsub.mem h

theorem deduplicateFindings_sublist (l : List PhiFinding) :
    (deduplicateFindings l).Sublist l := by
  unfold deduplicateFindings
  obtain ⟨s, hs, hsub⟩ := dedupGo_eq_append l []
  rw [hs]
  simpa using hsub

theorem dedupGo_no_overlap (l : List PhiFinding) :
    ∀ acc, NoOverlap acc → NoOverlap (dedupGo acc l) := by
  induction l with
  | nil => intro acc h; simpa [dedupGo] using h
  | cons f rest ih =>
    intro acc hacc
    simp only [dedupGo]
    split
    · exact ih acc hacc
    next hnone =>
      apply ih
      unfold NoOverlap
      rw [List.pairwise_append]
      refine ⟨hacc, by simp, ?_⟩
      intro g hg f' hf'
      simp only [List.mem_singleton] at hf'
      subst hf'
      rw [List.any_eq_true] at hnone
      push_neg at hnone
      have := hnone g hg
      rw [overlapsB_symm]
      simpa using this

theorem deduplicateFindings_no_overlap (l : List PhiFinding) :
    NoOverlap (deduplicateFindings l) :=
  dedupGo_no_overlap l [] (by simp [NoOverlap])

theorem dedupGo_covers (l : List PhiFinding) :
    ∀ acc, (acc ++ l).Pairwise (fun a b => b.confidence ≤ a.confidence) →
    ∀ x ∈ l, x ∈ dedupGo acc l ∨
      ∃ g ∈ dedupGo acc l, overlapsB x g = true ∧ x.confidence ≤ g.confidence := by
  induction l with
  | nil => intro acc _ x hx; simp at hx
  | cons f rest ih =>
    intro acc hsort x hx
    have hsort' : (acc ++ rest).Pairwise (fun a b => b.confidence ≤ a.confidence) :=
      hsort.sublist ((rest.sublist_cons_self f).append_left acc)
    simp only [dedupGo]
    split
    next hany =>
      rcases List.mem_cons.mp hx with rfl | hx
      · right
        rw [List.any_eq_true] at hany
        obtain ⟨g, hg, hov⟩ := hany
        have hgmem : g ∈ dedupGo acc rest := by
          obtain ⟨s, hs, _⟩ := dedupGo_eq_append rest acc
          rw [hs]
          exact List.mem_append_left _ hg
        refine ⟨g, hgmem, by simpa using hov, ?_⟩
        exact (List.pairwise_append.mp hsort).2.2 g hg x (List.mem_cons_self ..)
      · exact ih acc hsort' x hx
    next hany =>
      rcases List.mem_cons.mp hx with rfl | hx
      · left
        obtain ⟨s, hs, _⟩ := dedupGo_eq_append rest (acc ++ [x])
        rw [hs]
        exact List.mem_append_left _ (List.mem_append_right _ (by simp))
      · have hsort2 : ((acc ++ [f]) ++ rest).Pairwise
            (fun a b => b.confidence ≤ a.confidence) := by
          rw [List.append_assoc]
          exact hsort
        exact ih (acc ++ [f]) hsort2 x hx

theorem deduplicate_covers {l : List PhiFinding}
    (hsort : l.Pairwise (fun a b => b.confidence ≤ a.confidence)) :
    ∀ x ∈ l, x ∈ deduplicateFindings l ∨
      ∃ g ∈ deduplicateFindings l, overlapsB x g = true ∧
        x.confidence ≤ g.confidence := by
  unfold deduplicateFindings
  exact dedupGo_covers l [] (by simpa using hsort)

/-- All catalog patterns consume at least one character per match. -/
theorem phi_minLen_pos : ∀ p ∈ PHI_PATTERNS, 1 ≤ minLen p.pattern := by decide

/-- The only catalog pattern named "Social Security Number" has matches of
    at most 11 characters. -/
theorem ssn_name_maxLen : ∀ p ∈ PHI_PATTERNS,
    p.name = "Social Security Number" → maxLenOpt p.pattern = some 11 := by
  decide

/-- The matched text "000-00-0000" is always a false positive: the fixed
    exclusion list contains it, independent of the surrounding content. -/
theorem isFalsePositive_zeros (content : List Char) (i : Nat) :
    isFalsePositive "000-00-0000".toList content i = true := by
  unfold isFalsePositive
  have h : FALSE_POSITIVE_PATTERNS.any
      (fun re => reTest re "000-00-0000".toList) = true := by decide
  simp only [h]
  rfl

/-! ### Claim theorems -/

/-- C1: for every candidate, the code's confidence computation
    (`computeConfidence`, the scoring part of `detectPhi`'s per-match
    loop) performs exactly the five specification steps in order: base
    confidence, context delta when defined, strict-mode boost of 15 below
    70, the non-strict hard floor at 50, then the clamp to [0, 100]; in
    particular the boost precedes the floor check and the floor check is
    skipped entirely in strict mode. -/
theorem computeConfidence_follows_spec_steps (p : PhiPattern)
    (context : ContextType) (strictMode : Bool) :
    computeConfidence p context strictMode =
      specConfidenceScorer p.baseConfidence (p.contextModifiers context)
        strictMode := by
  cases hm : p.contextModifiers context with
  | none =>
    cases strictMode <;>
      simp only [computeConfidence, specConfidenceScorer, baseWithContext,
        applyStrictBoost, clampConfidence, hm] <;>
      simp
  | some d =>
    cases strictMode <;>
      simp only [computeConfidence, specConfidenceScorer, baseWithContext,
        applyStrictBoost, clampConfidence, hm] <;>
      simp

/-- C2: for every input, the findings of the returned result are sorted in
    descending order of confidence, and no two findings have overlapping
    half-open [startIndex, endIndex) ranges. -/
theorem detectPhi_findings_sorted_and_nonoverlapping (content : List Char)
    (context : ContextType) (strictMode : Bool) :
    ConfSorted (detectPhi content context strictMode).findings ∧
    (detectPhi content context strictMode).findings.Pairwise
      (fun f1 f2 => f1.endIndex ≤ f2.startIndex ∨ f2.endIndex ≤ f1.startIndex) := by
  constructor
  · unfold detectPhi ConfSorted
    exact (sortByConfidence_sorted _).sublist (deduplicateFindings_sublist _)
  · have h := deduplicateFindings_no_overlap
      (sortByConfidence (rawFindings content context strictMode))
    unfold NoOverlap at h
    unfold detectPhi
    exact h.imp (fun hab => overlapsB_eq_false.mp hab)

/-- C3 counterexample: on `c3text` the raw candidates are the SSN match
    (95, [40,49)), the MRN match (90, [36,49)) and the fingerprint match
    (85, [0,39)).  The MRN and fingerprint candidates mutually overlap and
    the MRN candidate is the highest-confidence member of that set, yet it
    is absent from the final result: dedup accepts the SSN first, which
    knocks out the MRN, and then accepts the overlapping set's weaker
    fingerprint candidate. -/
theorem dedup_can_drop_overlapping_set_maximum :
    c3mrnFinding ∈ rawFindings c3text ContextType.general false ∧
    c3fpFinding ∈ rawFindings c3text ContextType.general false ∧
    overlapsB c3mrnFinding c3fpFinding = true ∧
    c3fpFinding.confidence < c3mrnFinding.confidence ∧
    c3mrnFinding ∉ (detectPhi c3text ContextType.general false).findings :=
  ⟨by decide, by decide, by decide, by decide, by decide⟩

/-- C3 amended: every raw candidate either appears in the final result or
    overlaps some final finding of greater-or-equal confidence (so the
    globally highest-confidence candidate always survives); the
    highest-confidence member of a mutually overlapping set, however, can
    be displaced by a still stronger candidate outside the set. -/
theorem raw_candidate_in_result_or_covered (content : List Char)
    (context : ContextType) (strictMode : Bool) (f : PhiFinding)
    (hf : f ∈ rawFindings content context strictMode) :
    f ∈ (detectPhi content context strictMode).findings ∨
    ∃ g ∈ (detectPhi content context strictMode).findings,
      overlapsB f g = true ∧ f.confidence ≤ g.confidence := by
  unfold detectPhi
  exact deduplicate_covers (sortByConfidence_sorted _) f
    (mem_sortByConfidence.mpr hf)

theorem raw_candidate_in_result_or_covered_witness :
    witFinding ∈ (detectPhi witText ContextType.general false).findings ∨
    ∃ g ∈ (detectPhi witText ContextType.general false).findings,
      overlapsB witFinding g = true ∧
        witFinding.confidence ≤ g.confidence :=
  raw_candidate_in_result_or_covered witText ContextType.general false
    witFinding (by decide)

/-- C4 counterexample: the tool handler treats the empty string as missing
    content (`if (!content)` is taken, the empty string being falsy) and
    reports an error instead of an empty result. -/
theorem handlePhiDetect_empty_reports_error :
    handlePhiDetect [] ContextType.general false =
      PhiDetectOutcome.errorMessage
        "Error: Content is required for PHI detection." := rfl

/-- C4 amended: the engine `detectPhi` itself maps the empty string to an
    empty findings list with `scannedLength = 0` for every context and
    strict-mode setting, but the handler `handlePhiDetect` rejects empty
    content with an error message before ever invoking the engine. -/
theorem detectPhi_empty_scan (context : ContextType) (strictMode : Bool) :
    (detectPhi [] context strictMode).findings = [] ∧
    (detectPhi [] context strictMode).scannedLength = 0 ∧
    handlePhiDetect [] context strictMode =
      PhiDetectOutcome.errorMessage
        "Error: Content is required for PHI detection." :=
  ⟨rfl, rfl, rfl⟩

/-- C5 counterexample: the text `ssn = "123-45-6789"` yields no finding at
    all in either the code or the data context, because `123-45-6789` is
    on the fixed false-positive exclusion list; there are no SSN
    confidences to compare. -/
theorem canonical_example_ssn_suppressed_both_contexts :
    (detectPhi c5text ContextType.code false).findings = [] ∧
    (detectPhi c5text ContextType.data false).findings = [] :=
  ⟨by decide, by decide⟩

/-- C5 amended: with an SSN value that is not on the canonical exclusion
    list (`ssn = "456-78-9012"`), the data-context SSN confidence (95) is
    strictly greater than the code-context one (65 non-strict, 80 strict),
    for either strict-mode setting. -/
theorem ssn_confidence_data_exceeds_code :
    (detectPhi c5btext ContextType.code false).findings.map findingSummary =
      [("Social Security Number", 65, 7, 18)] ∧
    (detectPhi c5btext ContextType.data false).findings.map findingSummary =
      [("Social Security Number", 95, 7, 18)] ∧
    (detectPhi c5btext ContextType.code true).findings.map findingSummary =
      [("Social Security Number", 80, 7, 18)] ∧
    (detectPhi c5btext ContextType.data true).findings.map findingSummary =
      [("Social Security Number", 95, 7, 18)] ∧
    (65 : Int) < 95 ∧ (80 : Int) < 95 :=
  ⟨by decide, by decide, by decide, by decide, by decide, by decide⟩

/-- C6 counterexample: the scenario text yields no finding of type
    "Medical Record Number": the digit run of the MRN also matches the
    SSN rule at confidence 95 > 90, and deduplication drops the
    overlapping MRN finding. -/
theorem scenario_text_has_no_mrn_finding :
    ((detectPhi c6text ContextType.general false).findings.filter
      (fun f => f.type == "Medical Record Number")) = [] := by decide

/-- C6 amended: the scenario text yields exactly three findings — an SSN
    finding over the MRN digit run (which displaces the MRN finding in
    deduplication), the DOB and the phone — each with confidence at least
    50, pairwise non-overlapping, sorted descending by confidence. -/
theorem scenario_text_three_findings :
    (detectPhi c6text ContextType.general false).findings.map findingSummary =
      [("Social Security Number", 95, 13, 22),
       ("Date of Birth (Explicit)", 92, 24, 39),
       ("Phone Number", 65, 49, 62)] ∧
    (detectPhi c6text ContextType.general false).findings.length = 3 ∧
    (detectPhi c6text ContextType.general false).findings.all
      (fun f => decide (50 ≤ f.confidence)) = true ∧
    (detectPhi c6text ContextType.general false).findings.Pairwise
      (fun f1 f2 => f2.confidence ≤ f1.confidence) ∧
    (detectPhi c6text ContextType.general false).findings.Pairwise
      (fun f1 f2 => f1.endIndex ≤ f2.startIndex ∨ f2.endIndex ≤ f1.startIndex) :=
  ⟨by decide, by decide, by decide, by decide, by decide⟩

/-- C7: in any text containing the literal "000-00-0000", no SSN finding
    of any scan covers that occurrence: an SSN match spans at most 11
    characters, so a covering match would be exactly the literal, and the
    fixed false-positive list suppresses it before scoring. -/
theorem detectPhi_never_flags_zeros_ssn (content : List Char)
    (context : ContextType) (strictMode : Bool) (i : Nat)
    (hocc : (content.drop i).take 11 = "000-00-0000".toList)
    (f : PhiFinding)
    (hf : f ∈ (detectPhi content context strictMode).findings)
    (hty : f.type = "Social Security Number") :
    ¬ (f.startIndex ≤ i ∧ i + 11 ≤ f.endIndex) := by
  rintro ⟨hle, hge⟩
  unfold detectPhi at hf
  have hraw : f ∈ rawFindings content context strictMode :=
    mem_sortByConfidence.mp (mem_deduplicateFindings hf)
  obtain ⟨p, hpmem, hp⟩ := mem_rawFindings hraw
  obtain ⟨j, n, c, hmatch, hfp, hcc, heq⟩ := mem_scanPattern hp
  subst heq
  simp only at hle hge hty hfp
  have hml := findAllMatches_sound hmatch
  have hmax : n ≤ 11 := matchLenAt_maxLen (ssn_name_maxLen p hpmem hty) hml
  have hj : j = i := by omega
  have hn : n = 11 := by omega
  subst hj
  subst hn
  rw [hocc] at hfp
  rw [isFalsePositive_zeros] at hfp
  exact absurd hfp (by simp)

theorem detectPhi_never_flags_zeros_ssn_witness :
    ((c7text.drop 20).take 11 = "000-00-0000".toList) ∧
    ¬ (c7Finding.startIndex ≤ 20 ∧ 20 + 11 ≤ c7Finding.endIndex) :=
  ⟨by decide,
   detectPhi_never_flags_zeros_ssn c7text ContextType.general false 20
     (by decide) c7Finding (by decide) (by decide)⟩

/-- C8: every finding of every scan result has its confidence in [0, 100]:
    the clamp is applied before the finding is built, and sorting and
    deduplication only select from the built candidates. -/
theorem detectPhi_confidence_in_range (content : List Char)
    (context : ContextType) (strictMode : Bool) (f : PhiFinding)
    (hf : f ∈ (detectPhi content context strictMode).findings) :
    0 ≤ f.confidence ∧ f.confidence ≤ 100 := by
  unfold detectPhi at hf
  have hraw : f ∈ rawFindings content context strictMode :=
    mem_sortByConfidence.mp (mem_deduplicateFindings hf)
  obtain ⟨p, _, hp⟩ := mem_rawFindings hraw
  obtain ⟨i, n, c, _, _, hcc, rfl⟩ := mem_scanPattern hp
  exact computeConfidence_bounds hcc

theorem detectPhi_confidence_in_range_witness :
    0 ≤ witFinding.confidence ∧ witFinding.confidence ≤ 100 :=
  detectPhi_confidence_in_range witText ContextType.general false witFinding
    (by decide)

/-- C9: for a candidate whose base-plus-context confidence is below 70,
    the strict-mode pre-clamp confidence is exactly the non-strict one
    plus 15, and in particular never smaller. -/
theorem strict_boost_adds_exactly_15_below_70 (p : PhiPattern)
    (context : ContextType) (h : baseWithContext p context < 70) :
    applyStrictBoost (baseWithContext p context) true =
      applyStrictBoost (baseWithContext p context) false + 15 ∧
    applyStrictBoost (baseWithContext p context) false ≤
      applyStrictBoost (baseWithContext p context) true := by
  simp only [applyStrictBoost]
  constructor
  · simp [h]
  · split_ifs <;> simp_all

theorem strict_boost_adds_exactly_15_below_70_witness :
    baseWithContext phonePat ContextType.code < 70 ∧
    (applyStrictBoost (baseWithContext phonePat ContextType.code) true =
      applyStrictBoost (baseWithContext phonePat ContextType.code) false + 15 ∧
    applyStrictBoost (baseWithContext phonePat ContextType.code) false ≤
      applyStrictBoost (baseWithContext phonePat ContextType.code) true) :=
  ⟨by decide,
   strict_boost_adds_exactly_15_below_70 phonePat ContextType.code (by decide)⟩

/-- C10: every finding's matched text is exactly the substring of the
    input from startIndex (inclusive) to endIndex (exclusive), is
    non-empty, and its length is endIndex - startIndex, with
    startIndex < endIndex. -/
theorem detectPhi_match_equals_substring (content : List Char)
    (context : ContextType) (strictMode : Bool) (f : PhiFinding)
    (hf : f ∈ (detectPhi content context strictMode).findings) :
    f.matchText =
      (content.drop f.startIndex).take (f.endIndex - f.startIndex) ∧
    f.matchText ≠ [] ∧
    f.startIndex < f.endIndex ∧
    f.matchText.length = f.endIndex - f.startIndex := by
  unfold detectPhi at hf
  have hraw : f ∈ rawFindings content context strictMode :=
    mem_sortByConfidence.mp (mem_deduplicateFindings hf)
  obtain ⟨p, hpmem, hp⟩ := mem_rawFindings hraw
  obtain ⟨i, n, c, hmatch, hfp, hcc, rfl⟩ := mem_scanPattern hp
  have hml := findAllMatches_sound hmatch
  have h1 : 1 ≤ n := le_trans (phi_minLen_pos p hpmem) (matchLenAt_minLen hml)
  have h2 : n ≤ content.length - i := matchLenAt_le hml
  have hlen : ((content.drop i).take n).length = n := by
    simp [List.length_take, List.length_drop]
    omega
  refine ⟨?_, ?_, ?_, ?_⟩
  · simp
  · simp only
    intro hnil
    rw [hnil] at hlen
    simp at hlen
    omega
  · simp only
    omega
  · simp only
    rw [hlen]
    omega

theorem detectPhi_match_equals_substring_witness :
    witFinding.matchText =
      (witText.drop witFinding.startIndex).take
        (witFinding.endIndex - witFinding.startIndex) ∧
    witFinding.matchText ≠ [] ∧
    witFinding.startIndex < witFinding.endIndex ∧
    witFinding.matchText.length =
      witFinding.endIndex - witFinding.startIndex :=
  detectPhi_match_equals_substring witText ContextType.general false witFinding
    (by decide)
